import Mathlib

/-!
Shallow embedding of `curation_service/app.py`: the artifact selection and
render-cache pipeline behind `GET /json/<name>`, the `/list` endpoint, and
the curation pull-through cache behind the `/curations` endpoints.

Modelling decisions:
* File contents are modelled by the values they deserialize to:
  `pickle.loads` succeeds exactly on `FileContent.pklFile`, and reading a
  stored rendered document with `json.loads` succeeds exactly on
  `FileContent.jsonFile`.  A `FileContent.corrupt` value deserializes as
  neither, modelling bytes that raise on deserialization.
* Paths are strings relative to the working root, so the
  `replace(WORKING_DIR, ...)` step of `/list` is the identity and is omitted.
* External collaborators (`_format_evidence_text`, `_format_stmt_text`,
  `HtmlAssembler(...).make_json_model`, the database query behind
  `update_curations`, and the `submit_curation` client call) are passed in
  as explicit parameters of the embedded functions.
* The Python string methods used by the app (`endswith`, `startswith`,
  `replace`) are re-implemented over character lists so that every
  definition evaluates inside the kernel.
* Exceptions that propagate out of a handler are modelled by `Option`
  results (`none` = the handler raises instead of answering).
-/

namespace CurationService

/-- Python `s.endswith(suff)`. -/
def strEndsWith (s suff : String) : Bool :=
  suff.data.isSuffixOf s.data

/-- Python `s.startswith(p)`. -/
def strStartsWith (s p : String) : Bool :=
  p.data.isPrefixOf s.data

/-- Fuel-indexed core of Python `str.replace` for a non-empty pattern:
replace every non-overlapping occurrence, scanning left to right.  The
fuel is the length of the scanned list, which suffices because each step
consumes at least one character. -/
def replaceFuel (pat rep : List Char) : Nat → List Char → List Char
  | 0, s => s
  | _ + 1, [] => []
  | fuel + 1, c :: rest =>
    if pat.isPrefixOf (c :: rest) then
      rep ++ replaceFuel pat rep fuel (List.drop (pat.length - 1) rest)
    else
      c :: replaceFuel pat rep fuel rest

/-- Python `s.replace(pat, rep)` as used in the app (the pattern is one of
the non-empty literals `.pkl`, `.html`). -/
def pyReplace (s pat rep : String) : String :=
  if pat.isEmpty then s
  else ⟨replaceFuel pat.data rep.data s.data.length s.data⟩

/-- JSON values, used for the opaque outputs of the external formatters. -/
inductive Json where
  | null
  | bool (b : Bool)
  | int (n : Int)
  | str (s : String)
  | arr (elems : List Json)
  | obj (fields : List (String × Json))

/-- An INDRA statement as far as this service inspects it: its evidence
objects (only their count and formatted text are used) and its
`get_hash()` value. -/
structure Stmt where
  evidence : List Json
  hash : Int

/-- One entry of `result['stmts']` in ungrouped mode. -/
structure StmtView where
  evidence : Json
  english : String
  evidence_count : Nat
  hash : String
  source_count : Option Nat

/-- One entry of `result['stmts']`: an ungrouped statement dict, or a
grouped assembler dict with its `key` field attached. -/
inductive StmtEntry where
  | single (view : StmtView)
  | group (data : Json) (key : String)

/-- The rendered document `{'stmts': ..., 'grouped': ...}`. -/
structure RenderedDoc where
  stmts : List StmtEntry
  grouped : Bool

/-- Stored file bytes, modelled by what they deserialize to. -/
inductive FileContent where
  | jsonFile (doc : RenderedDoc)
  | pklFile (stmts : List Stmt)
  | corrupt (bytes : String)

/-- The blob store under the working root: filenames (relative to the
root) with their contents, kept in scan (listing) order. -/
abbrev Store := List (String × FileContent)

/-- `_get_file`: read the content stored at a path. -/
def storeGet : Store → String → Option FileContent
  | [], _ => none
  | (q, c) :: rest, p => if q = p then some c else storeGet rest p

/-- `_put_file`: overwrite in place, or create the file (a new file is
appended to the listing). -/
def storePut : Store → String → FileContent → Store
  | [], p, c => [(p, c)]
  | (q, c') :: rest, p, c =>
    if q = p then (q, c) :: rest else (q, c') :: storePut rest p c

/-- `_list_files(name)`: the stored paths that start with `name`, in scan
order. -/
def listFiles (store : Store) (name : String) : List String :=
  (store.map Prod.fst).filter (fun fn => strStartsWith fn name)

/-- `pickle.loads`: succeeds exactly on pickled statement lists. -/
def pickleLoads : FileContent → Option (List Stmt)
  | FileContent.pklFile stmts => some stmts
  | _ => none

/-- `json.loads` of a stored rendered document. -/
def jsonLoads : FileContent → Option RenderedDoc
  | FileContent.jsonFile doc => some doc
  | _ => none

/-- The file-selection loop of `get_json_content` (app.py lines 132-141):
`acc` is the running value of the `file_path` variable.  A `.json`
candidate (when regeneration is not forced) is taken immediately with
`break`; a `.pkl` candidate merely overwrites `file_path` and the scan
continues. -/
def selectLoop (regenerate : Bool) : List String → Option String → Option (String × Bool)
  | [], acc => acc.map (fun fp => (fp, false))
  | option :: rest, acc =>
    if strEndsWith option ".json" && !regenerate then some (option, true)
    else if strEndsWith option ".pkl" then selectLoop regenerate rest (some option)
    else selectLoop regenerate rest acc

/-- Artifact selection: the `(file_path, is_json)` pair chosen from the
candidate listing, or `none` when no candidate matches. -/
def selectFile (candidates : List String) (regenerate : Bool) : Option (String × Bool) :=
  selectLoop regenerate candidates none

/-- The first candidate ending in `.json` (used to state the selection
rule; the code breaks on the first such candidate). -/
def firstJson : List String → Option String
  | [] => none
  | c :: cs => if strEndsWith c ".json" then some c else firstJson cs

/-- The last candidate ending in `.pkl` (used to state the selection rule;
later `.pkl` candidates overwrite earlier ones in the loop). -/
def lastPkl : List String → Option String
  | [] => none
  | c :: cs =>
    match lastPkl cs with
    | some p => some p
    | none => if strEndsWith c ".pkl" then some c else none

/-- The sort key `(len(s.evidence), s.get_hash())`. -/
def stmtKey (s : Stmt) : Nat × Int :=
  (s.evidence.length, s.hash)

/-- Lexicographic order on sort keys, as Python compares the tuples. -/
def keyLE (p q : Nat × Int) : Prop :=
  p.1 < q.1 ∨ (p.1 = q.1 ∧ p.2 ≤ q.2)

instance : DecidableRel keyLE :=
  fun _ _ => inferInstanceAs (Decidable (_ ∨ _))

/-- `a` sorts no later than `b` under `sorted(..., reverse=True)`: the key
of `a` is at least the key of `b`. -/
def stmtGE (a b : Stmt) : Prop :=
  keyLE (stmtKey b) (stmtKey a)

instance : DecidableRel stmtGE :=
  fun _ _ => inferInstanceAs (Decidable (keyLE _ _))

instance : IsTotal Stmt stmtGE :=
  ⟨fun a b => by simp only [stmtGE, keyLE]; omega⟩

instance : IsTrans Stmt stmtGE :=
  ⟨fun a b c hab hbc => by simp only [stmtGE, keyLE] at hab hbc ⊢; omega⟩

/-- `sorted(stmts, key=lambda s: (len(s.evidence), s.get_hash()),
reverse=True)`: a stable descending sort on the key. -/
def sortStmtsDesc (stmts : List Stmt) : List Stmt :=
  List.insertionSort stmtGE stmts

/-- A curation record as stored in the in-process cache: the echoed
request fields plus the fields added by `entry.update(...)`, matching the
attribute map of `update_curations`. -/
structure CurationEntry where
  stmt_hash : Int
  source_hash : Int
  comment : String
  error_type : String
  id : Int
  ip : String
  email : String
  source : String
  date : Int
deriving DecidableEq

/-- `CURATIONS['cache']`: an insertion-ordered mapping from
`(pa_hash, source_hash)` to the list of records for that key. -/
abbrev Cache := List ((Int × Int) × List CurationEntry)

/-- `CURATIONS['cache'].get(key, [])`. -/
def cacheGet : Cache → Int × Int → List CurationEntry
  | [], _ => []
  | (k', es) :: rest, k => if k' = k then es else cacheGet rest k

/-- `if key not in cache: cache[key] = []` followed by
`cache[key].append(e)`. -/
def cacheAppend : Cache → Int × Int → CurationEntry → Cache
  | [], k, e => [(k, [e])]
  | (k', es) :: rest, k, e =>
    if k' = k then (k', es ++ [e]) :: rest
    else (k', es) :: cacheAppend rest k e

/-- The `CURATIONS` global: the `last_updated` timestamp (in seconds,
`none` before the first load) and the cache map. -/
structure CurationsState where
  last_updated : Option Int
  cache : Cache
deriving DecidableEq

/-- External rendering collaborators: `_format_evidence_text`,
`_format_stmt_text`, and `HtmlAssembler(...).make_json_model` (the
ordered dict returned as a list of key/group pairs). -/
structure RenderCtx where
  fmtEvidence : Stmt → Cache → Json
  fmtEnglish : Stmt → String
  makeJsonModel : List Stmt → Cache → List (String × Json)

/-- One `stmt_dict` of the ungrouped branch. -/
def mkStmtView (ctx : RenderCtx) (cache : Cache) (s : Stmt) : StmtView :=
  { evidence := ctx.fmtEvidence s cache
    english := ctx.fmtEnglish s
    evidence_count := s.evidence.length
    hash := toString s.hash
    source_count := none }

/-- Building `result = {'stmts': [...], 'grouped': grouped}` from the
unpickled statements. -/
def renderDoc (ctx : RenderCtx) (cache : Cache) (grouped : Bool)
    (stmts : List Stmt) : RenderedDoc :=
  { grouped := grouped
    stmts :=
      if grouped then
        (ctx.makeJsonModel stmts cache).map (fun kg => StmtEntry.group kg.2 kg.1)
      else
        (sortStmtsDesc stmts).map (fun s => StmtEntry.single (mkStmtView ctx cache s)) }

/-- The outcome of `GET /json/<name>`. -/
inductive RenderResult where
  | ok (doc : RenderedDoc)
  | badRequest (message : String)
  | serverError

/-- `get_json_content(name)` (app.py lines 120-191) with the request
arguments `regen`/`grouped` already parsed.  Returns the response, the
blob store after the call, and whether the rendering branch ran. -/
def get_json_content (ctx : RenderCtx) (cache : Cache) (name : String)
    (regenerate grouped : Bool) (store : Store) : RenderResult × Store × Bool :=
  match selectFile (listFiles store name) regenerate with
  | none =>
    (RenderResult.badRequest
      ("Invalid name: neither " ++ name ++ ".pkl nor " ++ name ++ ".json exists."),
     store, false)
  | some (fp, isJson) =>
    match storeGet store fp with
    | none => (RenderResult.serverError, store, false)
    | some raw_content =>
      if isJson then
        match jsonLoads raw_content with
        | some doc => (RenderResult.ok doc, store, false)
        | none => (RenderResult.serverError, store, false)
      else
        match pickleLoads raw_content with
        | none => (RenderResult.serverError, store, false)
        | some stmts =>
          let result := renderDoc ctx cache grouped stmts
          let json_file_path := pyReplace fp ".pkl" ".json"
          (RenderResult.ok result,
           storePut store json_file_path (FileContent.jsonFile result),
           true)

/-- The inner loop body of `list_names`: for each ending in
`['.html', '.pkl']`, strip a matching ending and add the result to the
option set (modelled as append-if-new, i.e. set semantics with insertion
order). -/
def addNameOptions (options : List String) (option : String) : List String :=
  [".html", ".pkl"].foldl
    (fun opts ending =>
      if strEndsWith option ending then
        if pyReplace option ending "" ∈ opts then opts
        else opts ++ [pyReplace option ending ""]
      else opts)
    options

/-- `GET /list` (app.py lines 100-111).  Paths are relative to the working
root, so the `replace(WORKING_DIR, ...)` step is the identity. -/
def list_names (store : Store) : List String :=
  (store.map Prod.fst).foldl addNameOptions []

/-- A row of the `Curation` table as returned by the database query in
`update_curations`, with the database attribute names. -/
structure DbRow where
  tag : String
  text : String
  curator : String
  source : String
  ip : String
  date : Int
  id : Int
  pa_hash : Int
  source_hash : Int
deriving DecidableEq

/-- The `attr_maps` translation of a database row into a cache dict. -/
def rowToEntry (r : DbRow) : CurationEntry :=
  { error_type := r.tag
    comment := r.text
    email := r.curator
    source := r.source
    ip := r.ip
    date := r.date
    id := r.id
    stmt_hash := r.pa_hash
    source_hash := r.source_hash }

/-- `update_curations()` (app.py lines 281-307): rebuild the cache from
scratch out of the queried rows (in query-return order) and stamp
`last_updated = now`.  Nothing of the previous state is read. -/
def update_curations (rows : List DbRow) (now : Int) : CurationsState :=
  { cache :=
      rows.foldl (fun c r => cacheAppend c (r.pa_hash, r.source_hash) (rowToEntry r)) []
    last_updated := some now }

/-- `GET /curations/<stmt_hash>/<ev_hash>` (app.py lines 228-240).
`rows` is the database content an `update_curations` call would see.
Returns `none` when the handler raises (subtracting from an absent
`last_updated` is a TypeError in the source); otherwise the answered
record list, the state after the call, and whether a refresh ran. -/
def get_curation (now : Int) (rows : List DbRow) (stmt_hash ev_hash : Int)
    (st : CurationsState) :
    Option (List CurationEntry × CurationsState × Bool) :=
  match st.last_updated with
  | none => none
  | some t =>
    if 3600 < now - t then
      let st' := update_curations rows now
      some (cacheGet st'.cache (stmt_hash, ev_hash), st', true)
    else
      some (cacheGet st.cache (stmt_hash, ev_hash), st, false)

/-- `GET /curations` (app.py lines 243-249), with the same conventions as
`get_curation`. -/
def get_curation_list (now : Int) (rows : List DbRow) (st : CurationsState) :
    Option (List (List String × List CurationEntry) × CurationsState × Bool) :=
  match st.last_updated with
  | none => none
  | some t =>
    if 3600 < now - t then
      let st' := update_curations rows now
      some (st'.cache.map (fun kv => ([toString kv.1.1, toString kv.1.2], kv.2)), st', true)
    else
      some (st.cache.map (fun kv => ([toString kv.1.1, toString kv.1.2], kv.2)), st, false)

/-- The JSON body of `POST /curations/submit`. -/
structure SubmitRequest where
  stmt_hash : Int
  source_hash : Int
  comment : String
  error_type : String
deriving DecidableEq

/-- The response of `POST /curations/submit`: the success body
`{'result': 'success', 'ref': {'id': dbid}}`, or the `abort` with a 400
response naming the bad hash. -/
inductive SubmitResult where
  | success (dbid : Int)
  | invalidHash (status : Nat) (message : String)
deriving DecidableEq

/-- The locally constructed cache record: `dict(request.json)` updated
with the returned id, the submitter ip, the curator email, the source
tag, and the current timestamp. -/
def mkSubmitEntry (req : SubmitRequest) (dbid : Int) (ip email source : String)
    (now : Int) : CurationEntry :=
  { stmt_hash := req.stmt_hash
    source_hash := req.source_hash
    comment := req.comment
    error_type := req.error_type
    id := dbid
    ip := ip
    email := email
    source := source
    date := now }

/-- `submit_curation_to_db` (app.py lines 194-225).  `dbResult` is the
outcome of the external `submit_curation` collaborator: the generated row
id, or the `mk_hash` carried by a raised `BadHashError`. -/
def submit_curation_to_db (tag email : String) (req : SubmitRequest) (ip : String)
    (dbResult : Except Int Int) (now : Int) (st : CurationsState) :
    SubmitResult × CurationsState :=
  match dbResult with
  | Except.error badHash =>
    (SubmitResult.invalidHash 400 ("Invalid hash: " ++ toString badHash ++ "."), st)
  | Except.ok dbid =>
    let key := (req.stmt_hash, req.source_hash)
    let entry := mkSubmitEntry req dbid ip email tag now
    (SubmitResult.success dbid, { st with cache := cacheAppend st.cache key entry })

/-- `POST /curations/update_cache` (app.py lines 252-254): the handler
calls `update_curations()` and falls off the end, so the view function
returns `None` (modelled as no response body). -/
def update_curations_endpoint (rows : List DbRow) (now : Int)
    (st : CurationsState) : Option String × CurationsState :=
  (none, update_curations rows now)

/-- A concrete instantiation of the external rendering collaborators,
used to evaluate the pipeline on concrete inputs. -/
def sampleCtx : RenderCtx :=
  { fmtEvidence := fun _ _ => Json.null
    fmtEnglish := fun _ => ""
    makeJsonModel := fun _ _ => [] }

/-- A concrete rendered document, used to evaluate the pipeline on
concrete inputs. -/
def sampleDoc : RenderedDoc :=
  { stmts := [], grouped := false }

/-! ### Helper lemmas -/

lemma selectLoop_spec (regenerate : Bool) (cs : List String) (acc : Option String) :
    selectLoop regenerate cs acc =
      match regenerate, firstJson cs with
      | false, some j => some (j, true)
      | _, _ =>
        match lastPkl cs with
        | some p => some (p, false)
        | none => acc.map (fun fp => (fp, false)) := by
  induction cs generalizing acc with
  | nil => cases regenerate <;> rfl
  | cons c cs ih =>
    cases regenerate <;>
      cases hj : strEndsWith c ".json" <;>
        cases hp : strEndsWith c ".pkl" <;>
          simp only [selectLoop, firstJson, lastPkl, hj, hp, Bool.not_true, Bool.not_false,
            Bool.and_true, Bool.and_false, Bool.false_and, Bool.true_and,
            if_true, if_false, ite_true, ite_false, Bool.false_eq_true, ih] <;>
          (cases hfj : firstJson cs <;> cases hlp : lastPkl cs <;> simp [hfj, hlp])

lemma cacheGet_cacheAppend (c : Cache) (k : Int × Int) (e : CurationEntry) :
    cacheGet (cacheAppend c k e) k = cacheGet c k ++ [e] := by
  induction c with
  | nil => simp [cacheAppend, cacheGet]
  | cons kv rest ih =>
    obtain ⟨k', es⟩ := kv
    by_cases hk : k' = k
    · subst hk; simp [cacheAppend, cacheGet]
    · simp [cacheAppend, cacheGet, hk, ih]

lemma get_json_content_cached (ctx : RenderCtx) (cache : Cache) (name : String)
    (g : Bool) (store : Store) (fp : String) (doc : RenderedDoc)
    (hsel : selectFile (listFiles store name) false = some (fp, true))
    (hget : storeGet store fp = some (FileContent.jsonFile doc)) :
    get_json_content ctx cache name false g store = (RenderResult.ok doc, store, false) := by
  simp [get_json_content, hsel, hget, jsonLoads]

lemma storeGet_storePut_self (s : Store) (k : String) (v : FileContent) :
    storeGet (storePut s k v) k = some v := by
  induction s with
  | nil => simp [storePut, storeGet]
  | cons qc rest ih =>
    obtain ⟨q, c⟩ := qc
    by_cases hq : q = k
    · subst hq; simp [storePut, storeGet]
    · simp [storePut, storeGet, hq, ih]

lemma storePut_of_absent (s : Store) (k : String) (v : FileContent)
    (h : storeGet s k = none) : storePut s k v = s ++ [(k, v)] := by
  induction s with
  | nil => rfl
  | cons qc rest ih =>
    obtain ⟨q, c⟩ := qc
    by_cases hq : q = k
    · subst hq; simp [storeGet] at h
    · simp only [storeGet, if_neg hq] at h
      simp [storePut, hq, ih h]

lemma storeGet_append_of_none (s t : Store) (k : String)
    (h : storeGet s k = none) : storeGet (s ++ t) k = storeGet t k := by
  induction s with
  | nil => rfl
  | cons qc rest ih =>
    obtain ⟨q, c⟩ := qc
    by_cases hq : q = k
    · subst hq; simp [storeGet] at h
    · simp only [storeGet, if_neg hq] at h
      simp only [List.cons_append, storeGet, if_neg hq]
      exact ih h

lemma listFiles_append (s t : Store) (name : String) :
    listFiles (s ++ t) name = listFiles s name ++ listFiles t name := by
  simp [listFiles, List.filter_append]

lemma isPrefixOf_append_self (l m : List Char) : l.isPrefixOf (l ++ m) = true := by
  simp only [List.isPrefixOf_iff_prefix]
  exact List.prefix_append l m

lemma strEndsWith_append (s suf : String) : strEndsWith (s ++ suf) suf = true := by
  simp [strEndsWith, List.isSuffixOf, String.data_append, List.reverse_append,
    isPrefixOf_append_self]

lemma mem_addOne (opts : List String) (fn e x : String)
    (hx : x ∈ (if strEndsWith fn e then
        (if pyReplace fn e "" ∈ opts then opts else opts ++ [pyReplace fn e ""])
      else opts)) :
    x ∈ opts ∨ (strEndsWith fn e = true ∧ x = pyReplace fn e "") := by
  split at hx
  · split at hx
    · exact Or.inl hx
    · rcases List.mem_append.1 hx with h | h
      · exact Or.inl h
      · exact Or.inr ⟨by assumption, List.mem_singleton.1 h⟩
  · exact Or.inl hx

lemma mem_addNameOptions (opts : List String) (fn x : String)
    (hx : x ∈ addNameOptions opts fn) :
    x ∈ opts ∨ (strEndsWith fn ".html" = true ∧ x = pyReplace fn ".html" "") ∨
      (strEndsWith fn ".pkl" = true ∧ x = pyReplace fn ".pkl" "") := by
  unfold addNameOptions at hx
  simp only [List.foldl_cons, List.foldl_nil] at hx
  rcases mem_addOne _ fn ".pkl" x hx with h | h
  · rcases mem_addOne _ fn ".html" x h with h' | h'
    · exact Or.inl h'
    · exact Or.inr (Or.inl h')
  · exact Or.inr (Or.inr h)

lemma mem_list_names (store : Store) (x : String) (hx : x ∈ list_names store) :
    ∃ fn ∈ store.map Prod.fst,
      (strEndsWith fn ".html" = true ∧ x = pyReplace fn ".html" "") ∨
      (strEndsWith fn ".pkl" = true ∧ x = pyReplace fn ".pkl" "") := by
  suffices h : ∀ (files : List String) (acc : List String),
      x ∈ files.foldl addNameOptions acc →
      x ∈ acc ∨ ∃ fn ∈ files,
        (strEndsWith fn ".html" = true ∧ x = pyReplace fn ".html" "") ∨
        (strEndsWith fn ".pkl" = true ∧ x = pyReplace fn ".pkl" "") by
    rcases h (store.map Prod.fst) [] hx with h' | h'
    · simp at h'
    · exact h'
  intro files
  induction files with
  | nil => exact fun acc h => Or.inl h
  | cons fn rest ih =>
    intro acc h
    simp only [List.foldl_cons] at h
    rcases ih (addNameOptions acc fn) h with h' | h'
    · rcases mem_addNameOptions acc fn x h' with h'' | h''
      · exact Or.inl h''
      · exact Or.inr ⟨fn, List.mem_cons_self fn rest, h''⟩
    · obtain ⟨g, hg, hgp⟩ := h'
      exact Or.inr ⟨g, List.mem_cons_of_mem fn hg, hgp⟩

/-! ### Claims -/

/-- C1 (corrected): for `resolve(name, force_regenerate, grouped)`, if a
`.json` candidate exists and regeneration is not forced, the first such
candidate is selected and marked already rendered; otherwise, if any
`.pkl` candidate exists, the LAST `.pkl` candidate in scan order is
selected for rendering (the loop overwrites `file_path` without breaking,
so later `.pkl` matches win, not the first as claimed). -/
theorem claim1_selection_rule (candidates : List String) (regenerate : Bool) :
    selectFile candidates regenerate =
      match regenerate, firstJson candidates with
      | false, some j => some (j, true)
      | _, _ => (lastPkl candidates).map (fun p => (p, false)) := by
  rw [selectFile, selectLoop_spec]
  cases regenerate <;> cases firstJson candidates <;> cases lastPkl candidates <;> rfl

/-- C1 counterexample: with candidates `["a.pkl", "b.pkl"]` (no `.json`,
regeneration not forced), the code selects `"b.pkl"`, the last `.pkl` in
scan order — not `"a.pkl"`, the first, as the claim states. -/
theorem claim1_counterexample :
    selectFile ["a.pkl", "b.pkl"] false = some ("b.pkl", false) ∧
    selectFile ["a.pkl", "b.pkl"] false ≠ some ("a.pkl", false) := by
  constructor <;> decide

/-- C2 (corrected): for a loaded cache (`last_updated = some t`), a read
older than one hour performs exactly one refresh before answering and a
younger read performs none (the `Bool` in the result counts the refresh);
but when the cache has never been loaded (`last_updated` absent) both read
endpoints raise (`datetime.now() - None` is a TypeError) instead of
refreshing, contrary to the claim. -/
theorem claim2_staleness_check (now t : Int) (rows : List DbRow) (sh eh : Int)
    (st stInit : CurationsState)
    (h : st.last_updated = some t) (h0 : stInit.last_updated = none) :
    (3600 < now - t →
      get_curation now rows sh eh st
        = some (cacheGet (update_curations rows now).cache (sh, eh),
                update_curations rows now, true) ∧
      get_curation_list now rows st
        = some ((update_curations rows now).cache.map
                  (fun kv => ([toString kv.1.1, toString kv.1.2], kv.2)),
                update_curations rows now, true)) ∧
    (now - t ≤ 3600 →
      get_curation now rows sh eh st = some (cacheGet st.cache (sh, eh), st, false) ∧
      get_curation_list now rows st
        = some (st.cache.map (fun kv => ([toString kv.1.1, toString kv.1.2], kv.2)),
                st, false)) ∧
    get_curation now rows sh eh stInit = none ∧
    get_curation_list now rows stInit = none := by
  refine ⟨fun hlt => ⟨?_, ?_⟩, fun hle => ⟨?_, ?_⟩, ?_, ?_⟩
  · simp only [get_curation, h, if_pos hlt]
  · simp only [get_curation_list, h, if_pos hlt]
  · simp only [get_curation, h, if_neg (not_lt.mpr hle)]
  · simp only [get_curation_list, h, if_neg (not_lt.mpr hle)]
  · simp only [get_curation, h0]
  · simp only [get_curation_list, h0]

/-- C2 witness: with a cache stamped at time 0 read at time 4000 (older
than one hour), one refresh runs before the answer. -/
theorem claim2_staleness_check_witness :
    get_curation 4000 [] 1 2 { last_updated := some 0, cache := [] }
      = some (cacheGet (update_curations [] 4000).cache (1, 2),
              update_curations [] 4000, true) :=
  ((claim2_staleness_check 4000 0 [] 1 2
      { last_updated := some 0, cache := [] }
      { last_updated := none, cache := [] } rfl rfl).1 (by decide)).1

/-- C2 counterexample: on the never-loaded state (`last_updated` absent)
the claim demands one refresh before the answer, but both read handlers
raise a TypeError (modelled `none`) and never answer at all. -/
theorem claim2_counterexample :
    get_curation 5000 [] 1 2 { last_updated := none, cache := [] } = none ∧
    get_curation_list 5000 [] { last_updated := none, cache := [] } = none :=
  ⟨rfl, rfl⟩

/-- C3 (confirmed): in ungrouped mode the rendered entries follow the
statements sorted by `(evidence_count, hash)` descending (`stmtGE` says
the earlier key is at least the later key in the lexicographic order),
the sort permutes the input, and for evidence counts `[3, 1, 3]` with
hashes `[10, 5, 20]` the output hash order is `[20, 10, 5]`. -/
theorem claim3_ungrouped_order :
    (∀ (ctx : RenderCtx) (cache : Cache) (stmts : List Stmt),
      (renderDoc ctx cache false stmts).stmts
        = (sortStmtsDesc stmts).map (fun s => StmtEntry.single (mkStmtView ctx cache s)) ∧
      List.Sorted stmtGE (sortStmtsDesc stmts) ∧
      (sortStmtsDesc stmts).Perm stmts) ∧
    (sortStmtsDesc
        [{ evidence := [Json.null, Json.null, Json.null], hash := 10 },
         { evidence := [Json.null], hash := 5 },
         { evidence := [Json.null, Json.null, Json.null], hash := 20 }]).map Stmt.hash
      = [20, 10, 5] := by
  constructor
  · intro ctx cache stmts
    exact ⟨rfl, List.sorted_insertionSort stmtGE stmts, List.perm_insertionSort stmtGE stmts⟩
  · decide

/-- C4 (confirmed): when the external submit collaborator raises
`BadHashError` with `mk_hash = badHash`, the handler answers a 400 client
error whose message names that hash, and the cache state is returned
completely unchanged. -/
theorem claim4_invalid_hash (tag email : String) (req : SubmitRequest) (ip : String)
    (badHash : Int) (now : Int) (st : CurationsState) :
    submit_curation_to_db tag email req ip (Except.error badHash) now st
      = (SubmitResult.invalidHash 400 ("Invalid hash: " ++ toString badHash ++ "."), st) :=
  rfl

/-- C5 (confirmed): a successful submission answers success with the
returned id, appends exactly the locally constructed record (id, ip,
email, source tag, timestamp) to the sequence for its key (creating it
if absent), and a subsequent fresh-cache read of that key answers the
sequence containing that record with zero refreshes. -/
theorem claim5_local_append (tag email : String) (req : SubmitRequest) (ip : String)
    (dbid now t nowRead : Int) (rows : List DbRow) (st : CurationsState)
    (h1 : st.last_updated = some t) (h2 : nowRead - t ≤ 3600) :
    (submit_curation_to_db tag email req ip (Except.ok dbid) now st).1
      = SubmitResult.success dbid ∧
    cacheGet (submit_curation_to_db tag email req ip (Except.ok dbid) now st).2.cache
        (req.stmt_hash, req.source_hash)
      = cacheGet st.cache (req.stmt_hash, req.source_hash)
          ++ [mkSubmitEntry req dbid ip email tag now] ∧
    get_curation nowRead rows req.stmt_hash req.source_hash
        (submit_curation_to_db tag email req ip (Except.ok dbid) now st).2
      = some (cacheGet st.cache (req.stmt_hash, req.source_hash)
                ++ [mkSubmitEntry req dbid ip email tag now],
              (submit_curation_to_db tag email req ip (Except.ok dbid) now st).2, false) ∧
    mkSubmitEntry req dbid ip email tag now
      ∈ cacheGet (submit_curation_to_db tag email req ip (Except.ok dbid) now st).2.cache
          (req.stmt_hash, req.source_hash) := by
  refine ⟨rfl, cacheGet_cacheAppend _ _ _, ?_, ?_⟩
  · simp only [submit_curation_to_db, get_curation, h1, if_neg (not_lt.mpr h2),
      cacheGet_cacheAppend]
  · simp only [submit_curation_to_db, cacheGet_cacheAppend]
    exact List.mem_append_right _ (List.mem_singleton.2 rfl)

/-- C5 witness: submitting for key `(111, 222)` with returned id 7
immediately answers success in the same process. -/
theorem claim5_local_append_witness :
    (submit_curation_to_db "tag" "me@example.com"
        { stmt_hash := 111, source_hash := 222, comment := "c", error_type := "err" }
        "1.2.3.4" (Except.ok 7) 50 { last_updated := some 0, cache := [] }).1
      = SubmitResult.success 7 :=
  (claim5_local_append "tag" "me@example.com"
      { stmt_hash := 111, source_hash := 222, comment := "c", error_type := "err" }
      "1.2.3.4" 7 50 0 100 [] { last_updated := some 0, cache := [] }
      rfl (by decide)).1

/-- C6 (confirmed): when a rendered `.json` artifact is selected (no
forced regeneration), the handler answers exactly the document the stored
bytes deserialize to, leaves the store unchanged, does not render, and
the answer is independent of the `grouped` argument. -/
theorem claim6_cached_json_path (ctx : RenderCtx) (cache : Cache) (name : String)
    (g g' : Bool) (store : Store) (fp : String) (doc : RenderedDoc)
    (hsel : selectFile (listFiles store name) false = some (fp, true))
    (hget : storeGet store fp = some (FileContent.jsonFile doc)) :
    get_json_content ctx cache name false g store = (RenderResult.ok doc, store, false) ∧
    get_json_content ctx cache name false g store
      = get_json_content ctx cache name false g' store := by
  have h := fun gg => get_json_content_cached ctx cache name gg store fp doc hsel hget
  exact ⟨h g, (h g).trans (h g').symm⟩

/-- C6 witness: for a store holding only `foo.json`, the cached document
is answered unchanged for both values of `grouped`. -/
theorem claim6_cached_json_path_witness :
    get_json_content sampleCtx [] "foo" false true
        [("foo.json", FileContent.jsonFile sampleDoc)]
      = (RenderResult.ok sampleDoc,
         [("foo.json", FileContent.jsonFile sampleDoc)], false) :=
  (claim6_cached_json_path sampleCtx [] "foo" true false
      [("foo.json", FileContent.jsonFile sampleDoc)] "foo.json" sampleDoc rfl rfl).1

/-- C7 counterexample: the claim quantifies over every name with only a
raw `.pkl` artifact, but for the name `x.pklx` with the single artifact
`x.pklx.pkl`, `replace` strips every `.pkl` occurrence and persists the
rendering at the mangled path `x.jsonx.json`, which does not start with
the name; so the second resolve lists only the `.pkl` again and re-runs
the rendering branch (the final `true`), contradicting the claimed
idempotence after the first render. -/
theorem claim7_counterexample :
    listFiles [("x.pklx.pkl", FileContent.pklFile [])] "x.pklx" = ["x.pklx.pkl"] ∧
    get_json_content sampleCtx [] "x.pklx" false false
        [("x.pklx.pkl", FileContent.pklFile [])]
      = (RenderResult.ok sampleDoc,
         [("x.pklx.pkl", FileContent.pklFile []),
          ("x.jsonx.json", FileContent.jsonFile sampleDoc)],
         true) ∧
    (get_json_content sampleCtx [] "x.pklx" false false
        [("x.pklx.pkl", FileContent.pklFile []),
         ("x.jsonx.json", FileContent.jsonFile sampleDoc)]).2.2 = true :=
  ⟨by decide, rfl, rfl⟩

/-- C7 (corrected): for a name whose scan finds exactly one `.pkl`
artifact, provided the `.json` path derived by
`replace('.pkl', '.json')` still starts with the name and does not yet
exist (which fails when the name or path contains another `.pkl`
occurrence, see the counterexample): the first resolve renders and
persists the document at that `.json` path, and a second resolve on the
resulting store selects that `.json` artifact, answers the identical
document, and does not run the rendering branch again. -/
theorem claim7_idempotent_after_render (ctx : RenderCtx) (cache : Cache)
    (name : String) (g : Bool) (store : Store) (p : String) (stmts : List Stmt)
    (h1 : listFiles store name = [p])
    (h2 : strEndsWith p ".pkl" = true)
    (h3 : strEndsWith p ".json" = false)
    (h4 : storeGet store p = some (FileContent.pklFile stmts))
    (h5 : strStartsWith (pyReplace p ".pkl" ".json") name = true)
    (h6 : strEndsWith (pyReplace p ".pkl" ".json") ".json" = true)
    (h7 : storeGet store (pyReplace p ".pkl" ".json") = none) :
    get_json_content ctx cache name false g store
      = (RenderResult.ok (renderDoc ctx cache g stmts),
         store ++ [(pyReplace p ".pkl" ".json",
                    FileContent.jsonFile (renderDoc ctx cache g stmts))],
         true) ∧
    get_json_content ctx cache name false g
        (store ++ [(pyReplace p ".pkl" ".json",
                    FileContent.jsonFile (renderDoc ctx cache g stmts))])
      = (RenderResult.ok (renderDoc ctx cache g stmts),
         store ++ [(pyReplace p ".pkl" ".json",
                    FileContent.jsonFile (renderDoc ctx cache g stmts))],
         false) := by
  have hsel1 : selectFile (listFiles store name) false = some (p, false) := by
    rw [h1]; simp [selectFile, selectLoop, h2, h3]
  constructor
  · simp only [get_json_content, hsel1, h4, pickleLoads, Bool.false_eq_true, if_false,
      ite_false]
    rw [storePut_of_absent _ _ _ h7]
  · have hlist2 : listFiles
        (store ++ [(pyReplace p ".pkl" ".json",
                    FileContent.jsonFile (renderDoc ctx cache g stmts))]) name
        = [p, pyReplace p ".pkl" ".json"] := by
      rw [listFiles_append, h1]
      simp [listFiles, h5]
    have hsel2 : selectFile (listFiles
        (store ++ [(pyReplace p ".pkl" ".json",
                    FileContent.jsonFile (renderDoc ctx cache g stmts))]) name) false
        = some (pyReplace p ".pkl" ".json", true) := by
      rw [hlist2]; simp [selectFile, selectLoop, h2, h3, h6]
    have hget2 : storeGet
        (store ++ [(pyReplace p ".pkl" ".json",
                    FileContent.jsonFile (renderDoc ctx cache g stmts))])
        (pyReplace p ".pkl" ".json")
        = some (FileContent.jsonFile (renderDoc ctx cache g stmts)) := by
      rw [storeGet_append_of_none _ _ _ h7]
      simp [storeGet]
    exact get_json_content_cached ctx cache name g _ _ _ hsel2 hget2

/-- C7 witness: with only `foo.pkl` present, the first resolve persists
`foo.json` and answers the rendered document. -/
theorem claim7_idempotent_after_render_witness :
    get_json_content sampleCtx [] "foo" false false
        [("foo.pkl", FileContent.pklFile [])]
      = (RenderResult.ok (renderDoc sampleCtx [] false []),
         [("foo.pkl", FileContent.pklFile [])]
           ++ [(pyReplace "foo.pkl" ".pkl" ".json",
                FileContent.jsonFile (renderDoc sampleCtx [] false []))],
         true) :=
  (claim7_idempotent_after_render sampleCtx [] "foo" false
      [("foo.pkl", FileContent.pklFile [])] "foo.pkl" []
      rfl (by decide) (by decide) rfl (by decide) (by decide) rfl).1

/-- C8 (confirmed): whenever `GET /json/<name>` does not answer a
rendered document (no candidate, unreadable bytes, failed
deserialization), the blob store is returned exactly as it was and the
rendering branch (which alone writes the `.json` artifact, after the
document is fully built in memory) did not run. -/
theorem claim8_no_partial_write (ctx : RenderCtx) (cache : Cache) (name : String)
    (regenerate grouped : Bool) (store : Store)
    (hfail : ∀ doc, (get_json_content ctx cache name regenerate grouped store).1
      ≠ RenderResult.ok doc) :
    (get_json_content ctx cache name regenerate grouped store).2.1 = store ∧
    (get_json_content ctx cache name regenerate grouped store).2.2 = false := by
  rcases hsel : selectFile (listFiles store name) regenerate with _ | ⟨fp, isJson⟩
  · simp [get_json_content, hsel]
  · rcases hget : storeGet store fp with _ | content
    · simp [get_json_content, hsel, hget]
    · cases isJson with
      | true =>
        rcases hj : jsonLoads content with _ | doc
        · simp [get_json_content, hsel, hget, hj]
        · exact absurd (by simp [get_json_content, hsel, hget, hj]) (hfail doc)
      | false =>
        rcases hp : pickleLoads content with _ | stmts
        · simp [get_json_content, hsel, hget, hp]
        · exact absurd (by simp [get_json_content, hsel, hget, hp])
            (hfail (renderDoc ctx cache grouped stmts))

/-- C8 witness: a `.pkl` path whose bytes fail to unpickle leaves the
store byte-for-byte as it was. -/
theorem claim8_no_partial_write_witness :
    (get_json_content sampleCtx [] "foo" false false
        [("foo.pkl", FileContent.corrupt "x")]).2.1
      = [("foo.pkl", FileContent.corrupt "x")] :=
  (claim8_no_partial_write sampleCtx [] "foo" false false
      [("foo.pkl", FileContent.corrupt "x")] (fun _ hd => nomatch hd)).1

/-- C9 (confirmed): `POST /curations/update_cache` performs the full
refresh — the state it returns has the cache rebuilt from the queried
rows and `last_updated` stamped to now — yet the view function returns
`None`, so no success body is ever produced. -/
theorem claim9_update_cache_returns_none (rows : List DbRow) (now : Int)
    (st : CurationsState) :
    (update_curations_endpoint rows now st).1 = none ∧
    (update_curations_endpoint rows now st).2.last_updated = some now ∧
    (update_curations_endpoint rows now st).2.cache
      = rows.foldl (fun c r => cacheAppend c (r.pa_hash, r.source_hash) (rowToEntry r)) [] :=
  ⟨rfl, rfl, rfl⟩

/-- C10 counterexample: the claim is false as universally stated because
`option.replace(ending, ...)` strips ALL occurrences of the ending: with
the store holding `foo.json` and `fo.htmlo.html`, the scan for `foo`
finds only the rendered `foo.json` (so `GET /json/foo` succeeds from the
cache), yet `fo.htmlo.html` strips to `foo`, which therefore DOES appear
in the `/list` answer. -/
theorem claim10_counterexample :
    listFiles [("foo.json", FileContent.jsonFile sampleDoc),
               ("fo.htmlo.html", FileContent.corrupt "")] "foo" = ["foo.json"] ∧
    (get_json_content sampleCtx [] "foo" false false
        [("foo.json", FileContent.jsonFile sampleDoc),
         ("fo.htmlo.html", FileContent.corrupt "")]).1 = RenderResult.ok sampleDoc ∧
    "foo" ∈ list_names [("foo.json", FileContent.jsonFile sampleDoc),
                        ("fo.htmlo.html", FileContent.corrupt "")] :=
  ⟨by decide, rfl, by decide⟩

/-- C10 (corrected): `/list` only derives names from candidates ending in
`.html` or `.pkl`, stripping every occurrence of the matched ending; so a
logical name whose only artifact is a rendered `.json` file, and to which
no other stored `.html`/`.pkl` file strips under that replace-all, is
absent from the `/list` answer even though `GET /json/<name>` answers its
rendered document. -/
theorem claim10_json_only_name_invisible (ctx : RenderCtx) (cache : Cache)
    (name : String) (g : Bool) (store : Store) (doc : RenderedDoc)
    (hnames : ∀ fn ∈ store.map Prod.fst,
      ¬(strEndsWith fn ".html" = true ∧ name = pyReplace fn ".html" "") ∧
      ¬(strEndsWith fn ".pkl" = true ∧ name = pyReplace fn ".pkl" ""))
    (hlist : listFiles store name = [name ++ ".json"])
    (hget : storeGet store (name ++ ".json") = some (FileContent.jsonFile doc)) :
    name ∉ list_names store ∧
    (get_json_content ctx cache name false g store).1 = RenderResult.ok doc := by
  constructor
  · intro hmem
    obtain ⟨fn, hfn, hcase⟩ := mem_list_names store name hmem
    rcases hcase with hh | hh
    · exact (hnames fn hfn).1 hh
    · exact (hnames fn hfn).2 hh
  · have hjson : strEndsWith (name ++ ".json") ".json" = true :=
      strEndsWith_append name ".json"
    have hsel : selectFile (listFiles store name) false
        = some (name ++ ".json", true) := by
      rw [hlist]; simp [selectFile, selectLoop, hjson]
    rw [get_json_content_cached ctx cache name g store (name ++ ".json") doc hsel hget]

/-- C10 witness: with only `foo.json` stored, `foo` is not listed. -/
theorem claim10_json_only_name_invisible_witness :
    "foo" ∉ list_names [("foo.json", FileContent.jsonFile sampleDoc)] :=
  (claim10_json_only_name_invisible sampleCtx [] "foo" false
      [("foo.json", FileContent.jsonFile sampleDoc)] sampleDoc
      (by decide) rfl rfl).1

end CurationService
